import Mathlib

/-!
Shallow embedding of the orchestration and adapter layer of
`Fred2/EpitopePrediction/External.py` (class `AExternalEpitopePrediction`
and its concrete tool adapters), together with theorems settling the
frozen claims about this code.

Conventions of the embedding:
* Python strings are Lean `String`s; `str.replace` and `str.split()[0]`
  are re-implemented below over `List Char` (`replaceAux`, `splitHeadTok`).
* Python dicts that `predict` builds (`pep_seqs`, `allales_string`) are
  modelled by their iteration as association lists with distinct keys.
* Floating point numbers are modelled by `ℝ`; the reading of a numeric
  cell from the tool output (`float(...)`) is a parameter
  `val : String → ℝ` of each parser.
* The external binary is modelled by a function
  `runner : Nat → String → ToolRun` giving, for the n-th spawned process
  and its full command line, the exit code, the captured stderr and the
  parse outcome of the output file it wrote (`none` models a parsing
  exception).
-/

namespace Fred2

/-! ### Python string primitives -/

/-- Whitespace as recognised by Python's `str.split()` (the characters
that occur in the command templates). -/
def pyIsSpace (c : Char) : Bool := c = ' ' || c = '\t' || c = '\n' || c = '\r'

/-- `s.split()[0]`: the first whitespace-separated token of `s`. -/
def splitHeadTok (s : List Char) : List Char :=
  (s.dropWhile pyIsSpace).takeWhile (fun c => !pyIsSpace c)

/-- Core of Python's `str.replace`: replace every non-overlapping
occurrence of `pat` in `s` by `rep`, scanning left to right.  The `fuel`
argument makes the recursion structural; it is always called with
`fuel = s.length`, which suffices because every step consumes at least
one character of `s` whenever `pat` is non-empty (every pattern used in
this development is non-empty). -/
def replaceAux (pat rep : List Char) : List Char → Nat → List Char
  | s, 0 => s
  | [], _ + 1 => []
  | c :: cs, fuel + 1 =>
    if pat.isPrefixOf (c :: cs) then
      rep ++ replaceAux pat rep ((c :: cs).drop pat.length) fuel
    else
      c :: replaceAux pat rep cs fuel

/-- Python's `s.replace(pat, rep)` (for non-empty `pat`). -/
def pyReplace (s pat rep : String) : String :=
  ⟨replaceAux pat.data rep.data s.data s.data.length⟩

/-- Whether `pat` occurs as a contiguous sublist of `s`. -/
def hasMatch (pat : List Char) : List Char → Bool
  | [] => false
  | c :: cs => pat.isPrefixOf (c :: cs) || hasMatch pat cs

/-- Lines 92-94: `exe = self.command.split()[0];
_command = self.command.replace(exe, command)`. -/
def overrideCommand (template cmd : String) : String :=
  pyReplace template ⟨splitHeadTok template.data⟩ cmd

/-- The command template minus its leading executable token (what the
spec expects to be preserved verbatim by a command override). -/
def dropExe (template : String) : String :=
  ⟨template.data.drop (splitHeadTok template.data).length⟩

/-! ### The command templates of the eight adapters -/

def netMHC_3_4_command : String := "netMHC -p {peptides} -a {alleles} -x {out} {options}"

def netMHC_3_0_command : String := "netMHC-3.0 -p {peptides} -a {alleles} -x {out} {options}"

def netMHCpan_2_4_command : String := "netMHCpan -p {peptides} -a {alleles} {options} -ic50 -xls -xlsfile {out}"

def netMHCpan_2_8_command : String := "netMHCpan -p {peptides} -a {alleles} {options} -ic50 -xls -xlsfile {out}"

def netMHCII_2_2_command : String := "netMHCII {peptides} -a {alleles} {options} | grep -v \"#\" > {out}"

def netMHCIIpan_3_0_command : String := "netMHCIIpan -f {peptides} -inptype 1 -a {alleles} {options} -xls -xlsfile {out}"

def pickPocket_1_1_command : String := "PickPocket -p {peptides} -a {alleles} {options} | grep -v \"#\" > {out}"

def netCTLpan_1_1_command : String := "netctlpan -f {peptides} -a {alleles} {options} > {out}"

/-- All eight adapter command templates. -/
def allCommands : List String :=
  [netMHC_3_4_command, netMHC_3_0_command, netMHCpan_2_4_command, netMHCpan_2_8_command,
   netMHCII_2_2_command, netMHCIIpan_3_0_command, pickPocket_1_1_command, netCTLpan_1_1_command]

/-! ### The allele batching loop (`predict`, lines 98-118)

The loop iterates the keys of `allales_string` (converted allele
strings); `supp a` models `str(allales_string[a]) in self.supportedAlleles`.
-/

structure BatchState where
  groups : List (List String)
  c_a : Nat
  cur : List String
deriving Repr, DecidableEq

/-- One iteration of the `for a in allales_string.iterkeys()` loop
(lines 101-115), translated branch by branch. -/
def batchStep (supp : String → Bool) (st : BatchState) (a : String) : BatchState :=
  if st.c_a ≥ 50 then
    if supp a then
      { groups := st.groups ++ [st.cur], c_a := 0, cur := [a] }
    else
      { groups := st.groups ++ [st.cur], c_a := 0, cur := [] }
  else
    if supp a then
      { st with cur := st.cur ++ [a], c_a := st.c_a + 1 }
    else
      st

/-- Lines 98-118: the whole batching loop including the final
`if len(allele_group) > 0: allele_groups.append(allele_group)`. -/
def alleleGroups (supp : String → Bool) (keys : List String) : List (List String) :=
  let st := keys.foldl (batchStep supp) ⟨[], 0, []⟩
  if st.cur.length > 0 then st.groups ++ [st.cur] else st.groups

/-- Sizes of the batches that follow the first one when `m + 1`
supported alleles remain to be batched after the first append: the
reset on line 103 sets the counter to 0 while the freshly started batch
already holds one allele, so every later batch fills up to 51. -/
def sizes51 (m : Nat) : List Nat :=
  if m ≤ 50 then [m + 1] else 51 :: sizes51 (m - 51)
termination_by m
decreasing_by omega

/-- The batch sizes the loop of lines 98-118 produces for `n` supported
alleles: one batch of 50, then batches of 51, then the remainder. -/
def batchSizes (n : Nat) : List Nat :=
  if n = 0 then [] else if n ≤ 50 then [n] else 50 :: sizes51 (n - 51)

/-- Lines 117-118: close the still-open batch if it is non-empty. -/
def finalizeGroups (st : BatchState) : List (List String) :=
  if st.cur.length > 0 then st.groups ++ [st.cur] else st.groups

/-- Sizes of the batches still to be emitted when the counter stands at
`c`, the open batch holds `c + d` alleles (`d ∈ {0, 1}`), and `k`
supported alleles remain to be processed. -/
def restSizes (c d k : Nat) : List Nat :=
  if c + d + k = 0 then []
  else if c + k ≤ 50 then [c + d + k]
  else (50 + d) :: sizes51 (c + k - 51)

/-! ### Peptide length grouping (`predict`, lines 121-126) -/

/-- Python's `min` over a (non-empty) collection of lengths. -/
def pyMin : List Nat → Nat
  | [] => 0
  | x :: xs => xs.foldl min x

/-- `itertools.groupby(pep_seqs.iterkeys(), key=lambda x: len(x))`:
maximal runs of adjacent sequences of equal length. -/
def groupRuns : List String → List (List String)
  | [] => []
  | p :: ps =>
    match groupRuns ps with
    | [] => [[p]]
    | g :: gs =>
      if (g.headD "").length = p.length then (p :: g) :: gs else [p] :: g :: gs

/-- The length groups that survive the filter on line 122
(`if length < min(self.supportedLength): continue`); each surviving
group is written to the temporary peptide file and submitted to the
external tool. -/
def peptideBatches (supLen : List Nat) (pep_seqs : List String) : List (List String) :=
  (groupRuns pep_seqs).filter (fun g => !((g.headD "").length < pyMin supLen))

/-! ### The `predict` pipeline (lines 119-164)

The external binary is abstracted by `runner`; everything else —
command construction, batching over length groups and allele groups,
temporary file lifecycle, error propagation, result merging and the
final emptiness check — is translated from the source.
-/

/-- Outcome of one spawned external process: its exit code, the captured
standard error, and the outcome of `parse_external_result` on the output
file it wrote (`none` models an exception raised while parsing). -/
structure ToolRun where
  returncode : Int
  stderr : String
  parsed : Option (List (String × String × ℝ))

/-- Line 139-140: `_command.format(peptides=..., alleles=",".join(...),
options=..., out=...)`, realised as placeholder substitution. -/
def formatCmd (template pepFile allelesStr optionsStr outFile : String) : String :=
  pyReplace (pyReplace (pyReplace (pyReplace template "{peptides}" pepFile)
    "{alleles}" allelesStr) "{options}" optionsStr) "{out}" outFile

/-- The name of the `n`-th temporary file created by a `predict` call. -/
def tmpName (n : Nat) : String := "/tmp/tmp" ++ toString n

/-- `result[k1][k2] = v` on the nested dict, flattened to an association
list keyed by the pair: replace an existing binding or append. -/
def setEntry (k : String × String) (v : ℝ) :
    List ((String × String) × ℝ) → List ((String × String) × ℝ)
  | [] => [(k, v)]
  | (k', v') :: rest => if k' = k then (k, v) :: rest else (k', v') :: setEntry k v rest

/-- Lines 151-153: merge one parsed batch result into the running
`result` dict, translating tool allele strings back through
`allales_string` and peptide sequences through `pep_seqs`.  A key
absent from either dict raises `KeyError` (modelled by `.error`). -/
def mergeParsed (alleles : List (String × String)) (pep_seqs : List String) :
    List (String × String × ℝ) → List ((String × String) × ℝ) →
    Except String (List ((String × String) × ℝ))
  | [], acc => .ok acc
  | (al, p, v) :: rest, acc =>
    match alleles.lookup al with
    | none => .error ("KeyError: " ++ al)
    | some orig =>
      if p ∈ pep_seqs then mergeParsed alleles pep_seqs rest (setEntry (orig, p) v acc)
      else .error ("KeyError: " ++ p)

/-- Lines 135-153: the `for allele_group in allele_groups` loop of one
length group.  `k` numbers the spawned processes; on a positive exit
status the `RuntimeError` of line 146 aborts everything, on a parse
exception or a `KeyError` the exception propagates likewise. -/
def runBatches (runner : Nat → String → ToolRun) (template pepFileName outFileName optStr : String)
    (alleles : List (String × String)) (pep_seqs : List String) :
    List (List String) → Nat → List ((String × String) × ℝ) →
    Except String (Nat × List ((String × String) × ℝ))
  | [], k, acc => .ok (k, acc)
  | g :: gs, k, acc =>
    let cmd := formatCmd template pepFileName (String.intercalate "," g) optStr outFileName
    let r := runner k cmd
    if r.returncode > 0 then
      .error ("Unsuccessful execution of " ++ cmd ++ " (EXIT!=0) with error: " ++ r.stderr)
    else
      match r.parsed with
      | none => .error ("Error while parsing " ++ outFileName)
      | some entries =>
        match mergeParsed alleles pep_seqs entries acc with
        | .error e => .error e
        | .ok acc' =>
          runBatches runner template pepFileName outFileName optStr alleles pep_seqs gs (k + 1) acc'

/-- State threaded through the `for length, peps in groupby(...)` loop:
the running result dict, the identifiers of the temporary files created
and not yet removed, the next fresh file identifier and the next process
number. -/
structure PredState where
  result : List ((String × String) × ℝ)
  live : List Nat
  nextF : Nat
  nextInv : Nat

/-- Result of (the modelled part of) a `predict` call: the returned
table or the propagated exception, together with the temporary files
still existing on the filesystem afterwards. -/
structure PredOut where
  res : Except String (List ((String × String) × ℝ))
  live : List Nat

/-- Lines 121-156: iterate the length groups.  A group whose length is
below the minimum supported length is skipped (line 122); otherwise the
two temporary files are created (`tmp_out` first, line 127, then
`tmp_file`, line 128), all allele batches are run, and on normal
completion both files are removed (lines 154-156).  An exception from a
batch propagates immediately, leaving the files in place. -/
def runLengthGroups (runner : Nat → String → ToolRun) (template optStr : String)
    (supLen : List Nat) (alleles : List (String × String)) (pep_seqs : List String)
    (agroups : List (List String)) : List (List String) → PredState → PredOut
  | [], st => ⟨.ok st.result, st.live⟩
  | g :: gs, st =>
    if (g.headD "").length < pyMin supLen then
      runLengthGroups runner template optStr supLen alleles pep_seqs agroups gs st
    else
      let outId := st.nextF
      let fileId := st.nextF + 1
      let created := st.live ++ [outId, fileId]
      match runBatches runner template (tmpName fileId) (tmpName outId) optStr alleles pep_seqs
          agroups st.nextInv st.result with
      | .error e => ⟨.error e, created⟩
      | .ok (k', res') =>
        runLengthGroups runner template optStr supLen alleles pep_seqs agroups gs
          ⟨res', (created.erase fileId).erase outId, st.nextF + 2, k'⟩

/-- Lines 60-164 of `AExternalEpitopePrediction.predict`, with the
validation prologue elided (it concerns only the environment): builds
the effective command template (lines 92-96), the allele batches
(lines 98-118), the length groups (line 121), runs all cycles and
applies the final emptiness check (lines 158-160).
`alleles` is the `allales_string` dict as an association list
`converted ↦ str(original)`; `pep_seqs` the peptide dict keys. -/
def predictCore (template : String) (supportedAlleles : List String) (supLen : List Nat)
    (cmdOverride : Option String) (options : Option String)
    (runner : Nat → String → ToolRun)
    (pep_seqs : List String) (alleles : List (String × String)) : PredOut :=
  let tmpl := match cmdOverride with
    | some c => overrideCommand template c
    | none => template
  let suppKey : String → Bool := fun a => decide (((alleles.lookup a).getD "") ∈ supportedAlleles)
  let agroups := alleleGroups suppKey (alleles.map Prod.fst)
  let optStr := options.getD ""
  runLengthGroups runner tmpl optStr supLen alleles pep_seqs agroups
    (groupRuns pep_seqs) ⟨[], [], 0, 0⟩

/-- `predictCore` followed by the final emptiness check of
lines 158-160: an empty merged result raises `ValueError` instead of
returning a table. -/
def predictModel (template : String) (supportedAlleles : List String) (supLen : List Nat)
    (cmdOverride : Option String) (options : Option String)
    (runner : Nat → String → ToolRun)
    (pep_seqs : List String) (alleles : List (String × String)) : PredOut :=
  let out := predictCore template supportedAlleles supLen cmdOverride options runner
    pep_seqs alleles
  match out.res with
  | .error e => ⟨.error e, out.live⟩
  | .ok r =>
    if r.isEmpty then
      ⟨.error "No predictions could be made for given input.", out.live⟩
    else
      ⟨.ok r, out.live⟩

/-! ### Output parsers and score normalisation

A tool output file in tab-separated form is a `List (List String)` of
rows of cells; a flat text output is a `List String` of lines.  The
conversion `float(cell)` is a parameter `val : String → ℝ`.
-/

/-- Python's `str.split()`: split on runs of whitespace, dropping empty
tokens.  As with `replaceAux`, the `fuel` argument makes the recursion
structural and is always instantiated with the length of the input,
which every step strictly consumes. -/
def pySplitChars : List Char → Nat → List (List Char)
  | _, 0 => []
  | [], _ + 1 => []
  | c :: cs, fuel + 1 =>
    if pyIsSpace c then pySplitChars cs fuel
    else (c :: cs.takeWhile (fun d => !pyIsSpace d)) ::
      pySplitChars (cs.dropWhile (fun d => !pyIsSpace d)) fuel

/-- Python's `str.split()` on a `String`. -/
def pySplit (s : String) : List String := (pySplitChars s.data s.data.length).map List.asString

/-- Python's `str.strip()` (whitespace on both ends). -/
def pyStrip (s : String) : String :=
  ⟨((s.data.dropWhile pyIsSpace).reverse.dropWhile pyIsSpace).reverse⟩

/-- `s.split()[0]` as a `String` (first whitespace-separated word of a
header cell). -/
def firstWord (s : String) : String := ⟨splitHeadTok s.data⟩

/-- Lines 230-231 and 293-294: `sc = 1.0 - math.log(float(ic_50), 50000)`
stored as `sc if sc > 0.0 else 0.0`. -/
noncomputable def netmhcScore (x : ℝ) : ℝ :=
  if 1 - Real.logb 50000 x > 0 then 1 - Real.logb 50000 x else 0

/-- The row loop shared by `NetMHC_3_4.parse_external_result`
(lines 219-232) and `NetMHC_3_0.parse_external_result` (lines 281-297):
skip two lines, read the allele names as the first word of each header
cell from column 3 on, then for every non-empty row zip the cells from
column 3 with the alleles and store the normalised score under
`(allele, row[2])`. -/
noncomputable def netmhcXlsEntries (val : String → ℝ) :
    List (List String) → List (String × String × ℝ)
  | _ :: _ :: hdr :: data =>
    let alleles := (hdr.drop 3).map firstWord
    data.flatMap (fun l =>
      if l = [] then []
      else ((l.drop 3).zip alleles).map (fun p => (p.2, l.getD 2 "", netmhcScore (val p.1))))
  | _ => []

/-- `NetMHC_3_4.parse_external_result` (lines 219-232). -/
noncomputable def parse_NetMHC_3_4 (val : String → ℝ) (rows : List (List String)) :
    List (String × String × ℝ) :=
  netmhcXlsEntries val rows

/-- `NetMHC_3_0.parse_external_result` (lines 281-297): the same loop
followed by `if 'Average' in result: result.pop('Average')`. -/
noncomputable def parse_NetMHC_3_0 (val : String → ℝ) (rows : List (List String)) :
    List (String × String × ℝ) :=
  (netmhcXlsEntries val rows).filter (fun e => e.1 ≠ "Average")

/-- `NetMHCpan_2_4.parse_external_result` (lines 669-679): the alleles
are the header cells `[3:-1]`, and the raw cell value at column `3 + i`
is stored unchanged — no log-transform is applied. -/
def parse_NetMHCpan_2_4 (val : String → ℝ) : List (List String) → List (String × String × ℝ)
  | hdr :: data =>
    let alleles := ((hdr.drop 3).dropLast).enum
    data.flatMap (fun row =>
      alleles.map (fun p => (p.2, row.getD 1 "", val (row.getD (3 + p.1) ""))))
  | [] => []

/-- `NetMHCpan_2_8.parse_external_result` (lines 1065-1075): the allele
names are collected by `set(filter(lambda x: x != "", f.next()))` —
`pySet` models the enumeration order of that Python set — one further
line is skipped, and the `i`-th enumerated allele is paired with the raw
cell at column `3 + i*3` of each row. -/
def parse_NetMHCpan_2_8 (pySet : List String → List String) (val : String → ℝ) :
    List (List String) → List (String × String × ℝ)
  | r0 :: _ :: data =>
    let alleles := (pySet (r0.filter (fun x => x ≠ ""))).enum
    data.flatMap (fun row =>
      alleles.map (fun p => (p.2, row.getD 1 "", val (row.getD (3 + p.1 * 3) ""))))
  | _ => []

/-- The allele-name rewriting of `NetMHCIIpan_3_0.parse_external_result`
(line 1278): `x.replace("*", "_").replace(":", "")`. -/
def iiPanName (x : String) : String := pyReplace (pyReplace x "*" "_") ":" ""

/-- `NetMHCIIpan_3_0.parse_external_result` (lines 1275-1285): as for
NetMHCpan 2.8, with the header names rewritten by `iiPanName` and the
same `3 + i*3` column stride. -/
def parse_NetMHCIIpan_3_0 (pySet : List String → List String) (val : String → ℝ) :
    List (List String) → List (String × String × ℝ)
  | r0 :: _ :: data =>
    let alleles := ((pySet (r0.filter (fun x => x ≠ ""))).map iiPanName).enum
    data.flatMap (fun row =>
      alleles.map (fun p => (p.2, row.getD 1 "", val (row.getD (3 + p.1 * 3) ""))))
  | _ => []

/-- `NetMHCII_2_2.parse_external_result` (lines 1119-1133): flat rows,
keep lines whose first word contains `HLA-`, store the raw fifth word. -/
def parse_NetMHCII_2_2 (val : String → ℝ) (rows : List (List String)) :
    List (String × String × ℝ) :=
  rows.flatMap (fun r =>
    if r = [] then []
    else
      let row := pySplit (r.getD 0 "")
      if row = [] then []
      else if !hasMatch "HLA-".data (row.getD 0 "").data then []
      else [(row.getD 0 "", row.getD 2 "", val (row.getD 4 ""))])

/-- `PickPocket_1_1.parse_external_result` (lines 1630-1639): skip
comment, rule and header lines, store the raw fifth word under the
allele with `*` removed. -/
def parse_PickPocket_1_1 (val : String → ℝ) (lines : List String) :
    List (String × String × ℝ) :=
  lines.flatMap (fun row =>
    if row.data.headD ' ' = '#' || row.data.headD ' ' = '-' || pyStrip row = ""
        || hasMatch "pos".data row.data then []
    else
      let s := pySplit row
      [(pyReplace (s.getD 1 "") "*" "", s.getD 2 "", val (s.getD 4 ""))])

/-- `NetCTLpan_1_1.parse_external_result` (lines 2017-2029): skip
comment/rule/blank lines and lines whose first word is not a number,
store the raw eighth word (the combined score) unchanged. -/
def parse_NetCTLpan_1_1 (val : String → ℝ) (lines : List String) :
    List (String × String × ℝ) :=
  lines.flatMap (fun l =>
    if l.data.headD ' ' = '#' || l.data.headD ' ' = '-' || pyStrip l = "" then []
    else
      let row := pySplit (pyStrip l)
      if !((row.getD 0 "").data ≠ [] && (row.getD 0 "").data.all Char.isDigit) then []
      else [(pyReplace (row.getD 2 "") "*" "", row.getD 3 "", val (row.getD 7 ""))])

/-! ## Theorems

### Helper lemmas on the Python string primitives -/

theorem replaceAux_no_match {pat : List Char} (rep : List Char) :
    ∀ (s : List Char) (fuel : Nat), s.length ≤ fuel → hasMatch pat s = false →
      replaceAux pat rep s fuel = s
  | [], 0, _, _ => rfl
  | [], _ + 1, _, _ => rfl
  | _ :: _, 0, hf, _ => by simp at hf
  | c :: cs, fuel + 1, hf, hm => by
    have hm' := hm
    simp only [hasMatch, Bool.or_eq_false_iff] at hm'
    simp only [replaceAux, hm'.1, if_false, Bool.false_eq_true]
    rw [replaceAux_no_match rep cs fuel (by simpa using hf) hm'.2]

theorem replaceAux_head {pat : List Char} (rep : List Char) (c : Char) (cs : List Char)
    (fuel : Nat) (hp : pat.isPrefixOf (c :: cs) = true) :
    replaceAux pat rep (c :: cs) (fuel + 1) =
      rep ++ replaceAux pat rep ((c :: cs).drop pat.length) fuel := by
  simp [replaceAux, hp]

/-- If the executable token of a template occurs in it exactly once,
namely as a prefix, then `command.replace(exe, cmd)` replaces precisely
the leading token and keeps the rest of the template verbatim. -/
theorem overrideCommand_eq (t cmd : String)
    (hne : splitHeadTok t.data ≠ [])
    (hpre : (splitHeadTok t.data).isPrefixOf t.data = true)
    (hrest : hasMatch (splitHeadTok t.data) (t.data.drop (splitHeadTok t.data).length) = false) :
    overrideCommand t cmd = cmd ++ dropExe t := by
  obtain ⟨cl⟩ := cmd
  obtain ⟨tl⟩ := t
  show String.mk (replaceAux (splitHeadTok tl) cl tl tl.length) =
    String.mk (cl ++ tl.drop (splitHeadTok tl).length)
  cases tl with
  | nil => simp_all [splitHeadTok]
  | cons c cs =>
    congr 1
    rw [List.length_cons, replaceAux_head cl c cs cs.length hpre]
    congr 1
    have hlen : ((c :: cs).drop (splitHeadTok (c :: cs)).length).length ≤ cs.length := by
      have h1 : 1 ≤ (splitHeadTok (c :: cs)).length :=
        Nat.one_le_iff_ne_zero.mpr (by simpa [List.length_eq_zero] using hne)
      simp only [List.length_drop, List.length_cons]
      omega
    exact replaceAux_no_match cl _ cs.length hlen hrest

/-- C7: for every call to `predict` with a non-`None` `command`
argument, the command line actually executed equals the method's default
command template with only its executable token (the first
whitespace-separated word) replaced by the given command, and every
other flag and placeholder of the template unchanged.  This holds for
all eight adapter templates because each contains its executable token
exactly once, as the leading word, so the global substring replacement
of line 94 coincides with replacing the first token. -/
theorem claim7_command_override_exact :
    ∀ t ∈ allCommands, ∀ cmd : String, overrideCommand t cmd = cmd ++ dropExe t := by
  have hside : ∀ t ∈ allCommands, splitHeadTok t.data ≠ [] ∧
      (splitHeadTok t.data).isPrefixOf t.data = true ∧
      hasMatch (splitHeadTok t.data) (t.data.drop (splitHeadTok t.data).length) = false := by
    decide
  intro t ht cmd
  exact overrideCommand_eq t cmd (hside t ht).1 (hside t ht).2.1 (hside t ht).2.2

/-- Witness for C7 at the NetMHC 3.4 template and a concrete override. -/
theorem claim7_witness :
    overrideCommand netMHC_3_4_command "/opt/bin/netMHC" = "/opt/bin/netMHC" ++ dropExe netMHC_3_4_command :=
  claim7_command_override_exact netMHC_3_4_command (by decide) "/opt/bin/netMHC"

/-! ### Helper lemmas on the allele batching loop -/

/-- Invariant of the batching loop: the counter never exceeds 50, the
open batch holds at most one allele more than the counter records (the
reset on line 103 forgets the allele seeded into the new batch on
line 109), every closed batch has at most 51 entries, and every batched
allele passed the support test. -/
theorem batch_fold_invariant (supp : String → Bool) :
    ∀ (keys : List String) (st : BatchState),
      st.c_a ≤ 50 → st.cur.length ≤ st.c_a + 1 →
      (∀ g ∈ st.groups, g.length ≤ 51) →
      (∀ a ∈ st.cur, supp a = true) →
      (∀ g ∈ st.groups, ∀ a ∈ g, supp a = true) →
      (keys.foldl (batchStep supp) st).c_a ≤ 50 ∧
      (keys.foldl (batchStep supp) st).cur.length ≤ (keys.foldl (batchStep supp) st).c_a + 1 ∧
      (∀ g ∈ (keys.foldl (batchStep supp) st).groups, g.length ≤ 51) ∧
      (∀ a ∈ (keys.foldl (batchStep supp) st).cur, supp a = true) ∧
      (∀ g ∈ (keys.foldl (batchStep supp) st).groups, ∀ a ∈ g, supp a = true)
  | [], st, h1, h2, h3, h4, h5 => ⟨h1, h2, h3, h4, h5⟩
  | a :: keys, st, h1, h2, h3, h4, h5 => by
    rw [List.foldl_cons]
    rcases st with ⟨gs, c, cur⟩
    dsimp only at h1 h2 h3 h4 h5
    by_cases hc : 50 ≤ c
    · by_cases hs : supp a = true
      · have hstep : batchStep supp ⟨gs, c, cur⟩ a = ⟨gs ++ [cur], 0, [a]⟩ := by
          simp [batchStep, hc, hs]
        rw [hstep]
        refine batch_fold_invariant supp keys _ (by dsimp only; omega) (by simp) ?_ ?_ ?_
        · intro g hg
          rcases List.mem_append.mp hg with hg | hg
          · exact h3 g hg
          · simp only [List.mem_singleton] at hg
            subst hg
            omega
        · intro b hb
          simp only [List.mem_singleton] at hb
          subst hb; exact hs
        · intro g hg
          rcases List.mem_append.mp hg with hg | hg
          · exact h5 g hg
          · simp only [List.mem_singleton] at hg
            subst hg; exact h4
      · have hstep : batchStep supp ⟨gs, c, cur⟩ a = ⟨gs ++ [cur], 0, []⟩ := by
          simp [batchStep, hc, hs]
        rw [hstep]
        refine batch_fold_invariant supp keys _ (by dsimp only; omega) (by simp) ?_ (by simp) ?_
        · intro g hg
          rcases List.mem_append.mp hg with hg | hg
          · exact h3 g hg
          · simp only [List.mem_singleton] at hg
            subst hg
            omega
        · intro g hg
          rcases List.mem_append.mp hg with hg | hg
          · exact h5 g hg
          · simp only [List.mem_singleton] at hg
            subst hg; exact h4
    · by_cases hs : supp a = true
      · have hstep : batchStep supp ⟨gs, c, cur⟩ a = ⟨gs, c + 1, cur ++ [a]⟩ := by
          simp [batchStep, hc, hs]
        rw [hstep]
        have hlen : (cur ++ [a]).length = cur.length + 1 := by simp
        refine batch_fold_invariant supp keys _ (by dsimp only; omega) ?_ h3 ?_ h5
        · dsimp only
          omega
        · intro b hb
          rcases List.mem_append.mp hb with hb | hb
          · exact h4 b hb
          · simp only [List.mem_singleton] at hb
            subst hb; exact hs
      · have hstep : batchStep supp ⟨gs, c, cur⟩ a = ⟨gs, c, cur⟩ := by
          simp [batchStep, hc, hs]
        rw [hstep]
        exact batch_fold_invariant supp keys _ h1 h2 h3 h4 h5

/-- Every batch the loop emits has at most 51 entries, and all its
entries passed the support test. -/
theorem alleleGroups_bound_and_supported (supp : String → Bool) (keys : List String) :
    (∀ g ∈ alleleGroups supp keys, g.length ≤ 51) ∧
    (∀ g ∈ alleleGroups supp keys, ∀ a ∈ g, supp a = true) := by
  obtain ⟨h1, h2, h3, h4, h5⟩ := batch_fold_invariant supp keys ⟨[], 0, []⟩ (by simp) (by simp)
    (by simp) (by simp) (by simp)
  have hag : alleleGroups supp keys =
      (if (List.foldl (batchStep supp) ⟨[], 0, []⟩ keys).cur.length > 0 then
        (List.foldl (batchStep supp) ⟨[], 0, []⟩ keys).groups ++
          [(List.foldl (batchStep supp) ⟨[], 0, []⟩ keys).cur]
      else (List.foldl (batchStep supp) ⟨[], 0, []⟩ keys).groups) := rfl
  rw [hag]
  constructor
  · intro g hg
    split at hg
    · rcases List.mem_append.mp hg with hg | hg
      · exact h3 g hg
      · simp only [List.mem_singleton] at hg
        subst hg; omega
    · exact h3 g hg
  · intro g hg
    split at hg
    · rcases List.mem_append.mp hg with hg | hg
      · exact h5 g hg
      · simp only [List.mem_singleton] at hg
        subst hg; exact h4
    · exact h5 g hg

set_option maxRecDepth 10000 in
/-- C2 counterexample: with 101 supported input alleles the loop
produces a second batch of 51 converted allele strings, so the claim
that every batch holds at most 50 fails. -/
theorem claim2_counterexample :
    ((alleleGroups (fun _ => true) ((List.range 101).map (fun n => "a" ++ toString n))).map
      List.length = [50, 51]) ∧
    ¬(∀ g ∈ alleleGroups (fun _ => true) ((List.range 101).map (fun n => "a" ++ toString n)),
      g.length ≤ 50) := by
  constructor
  · decide
  · decide

/-- C2 amended: every allele batch constructed by the batching loop
contains at most 51 converted allele strings (the reset on line 103
zeroes the counter while the new batch is seeded with one allele, so
batches after the first can reach 51). -/
theorem claim2_batch_at_most_51 (supp : String → Bool) (keys : List String) :
    ∀ g ∈ alleleGroups supp keys, g.length ≤ 51 :=
  (alleleGroups_bound_and_supported supp keys).1

/-- Witness for the amended C2 at a concrete two-allele input. -/
theorem claim2_witness : (["HLA-A*01:01", "HLA-A*02:01"] : List String).length ≤ 51 :=
  claim2_batch_at_most_51 (fun _ => true) ["HLA-A*01:01", "HLA-A*02:01"]
    ["HLA-A*01:01", "HLA-A*02:01"] (by decide)

/-! ### The batching loop on fully supported input -/

theorem batch_fold_flatten_true :
    ∀ (keys : List String) (st : BatchState),
      (keys.foldl (batchStep (fun _ => true)) st).groups.flatten ++
        (keys.foldl (batchStep (fun _ => true)) st).cur =
      st.groups.flatten ++ st.cur ++ keys
  | [], st => by simp
  | a :: keys, st => by
    rw [List.foldl_cons]
    rcases st with ⟨gs, c, cur⟩
    by_cases hc : 50 ≤ c
    · have hstep : batchStep (fun _ => true) ⟨gs, c, cur⟩ a = ⟨gs ++ [cur], 0, [a]⟩ := by
        simp [batchStep, hc]
      rw [hstep, batch_fold_flatten_true keys _]
      simp
    · have hstep : batchStep (fun _ => true) ⟨gs, c, cur⟩ a = ⟨gs, c + 1, cur ++ [a]⟩ := by
        simp [batchStep, hc]
      rw [hstep, batch_fold_flatten_true keys _]
      simp

/-- On fully supported input the concatenation of all batches is
exactly the key list: nothing is lost, duplicated or reordered. -/
theorem alleleGroups_true_flatten (keys : List String) :
    (alleleGroups (fun _ => true) keys).flatten = keys := by
  have h := batch_fold_flatten_true keys ⟨[], 0, []⟩
  simp only [BatchState.groups, BatchState.cur, List.flatten_nil, List.nil_append] at h
  have hag : alleleGroups (fun _ => true) keys =
      finalizeGroups (keys.foldl (batchStep (fun _ => true)) ⟨[], 0, []⟩) := rfl
  rw [hag, finalizeGroups]
  split
  · simpa using h
  · rename_i hcur
    have : (keys.foldl (batchStep (fun _ => true)) ⟨[], 0, []⟩).cur = [] := by
      simpa [List.length_eq_zero] using hcur
    rw [this, List.append_nil] at h
    exact h

theorem restSizes_shift (c d k : Nat) (hc : c < 50) :
    restSizes c d (k + 1) = restSizes (c + 1) d k := by
  simp only [restSizes]
  have h0 : ¬(c + d + (k + 1) = 0) := by omega
  have h0' : ¬(c + 1 + d + k = 0) := by omega
  rw [if_neg h0, if_neg h0']
  by_cases h1 : c + (k + 1) ≤ 50
  · rw [if_pos h1, if_pos (by omega)]
    congr 1
    omega
  · rw [if_neg h1, if_neg (by omega)]
    congr 2
    omega

theorem restSizes_close (d k : Nat) :
    restSizes 50 d (k + 1) = (50 + d) :: restSizes 0 1 k := by
  rw [restSizes, if_neg (show ¬(50 + d + (k + 1) = 0) by omega),
    if_neg (show ¬(50 + (k + 1) ≤ 50) by omega)]
  have h1 : 50 + (k + 1) - 51 = k := by omega
  rw [h1]
  congr 1
  rw [sizes51, restSizes]
  by_cases h2 : k ≤ 50
  · rw [if_pos h2, if_neg (show ¬(0 + 1 + k = 0) by omega),
      if_pos (show 0 + k ≤ 50 by omega)]
    simp
    omega
  · rw [if_neg h2, if_neg (show ¬(0 + 1 + k = 0) by omega),
      if_neg (show ¬(0 + k ≤ 50) by omega)]
    simp

theorem batch_fold_sizes_true :
    ∀ (keys : List String) (gs : List (List String)) (c d : Nat) (cur : List String),
      d ≤ 1 → c ≤ 50 → cur.length = c + d →
      (finalizeGroups (keys.foldl (batchStep (fun _ => true)) ⟨gs, c, cur⟩)).map List.length =
        gs.map List.length ++ restSizes c d keys.length
  | [], gs, c, d, cur, _, hc, hcur => by
    rw [List.foldl_nil, finalizeGroups, restSizes, List.length_nil]
    dsimp only
    by_cases h0 : cur.length > 0
    · rw [if_pos h0, if_neg (show ¬(c + d + 0 = 0) by omega),
        if_pos (show c + 0 ≤ 50 by omega)]
      simp [hcur]
    · rw [if_neg h0, if_pos (show c + d + 0 = 0 by omega)]
      simp
  | a :: keys, gs, c, d, cur, hd, hc, hcur => by
    rw [List.foldl_cons]
    by_cases hc50 : 50 ≤ c
    · have hc' : c = 50 := le_antisymm hc hc50
      have hstep : batchStep (fun _ => true) ⟨gs, c, cur⟩ a = ⟨gs ++ [cur], 0, [a]⟩ := by
        simp [batchStep, hc50]
      rw [hstep, batch_fold_sizes_true keys (gs ++ [cur]) 0 1 [a] (by omega) (by omega) (by simp)]
      subst hc'
      simp only [List.length_cons, restSizes_close d keys.length, List.map_append,
        List.map_cons, List.map_nil, hcur]
      simp
    · have hstep : batchStep (fun _ => true) ⟨gs, c, cur⟩ a = ⟨gs, c + 1, cur ++ [a]⟩ := by
        simp [batchStep, hc50]
      rw [hstep, batch_fold_sizes_true keys gs (c + 1) d (cur ++ [a]) hd (by omega) (by simp; omega)]
      rw [List.length_cons, restSizes_shift c d keys.length (by omega)]

theorem restSizes_zero_zero (n : Nat) : restSizes 0 0 n = batchSizes n := by
  rw [restSizes, batchSizes]
  by_cases h0 : n = 0
  · rw [if_pos (by omega), if_pos h0]
  · rw [if_neg (by omega), if_neg h0]
    by_cases h1 : n ≤ 50
    · rw [if_pos (by omega), if_pos h1]
      simp
    · rw [if_neg (by omega), if_neg h1]
      simp

/-- On fully supported input the emitted batch sizes are exactly
`batchSizes` of the number of alleles. -/
theorem alleleGroups_true_sizes (keys : List String) :
    (alleleGroups (fun _ => true) keys).map List.length = batchSizes keys.length := by
  have h := batch_fold_sizes_true keys [] 0 0 [] (by omega) (by omega) (by simp)
  rw [List.map_nil, List.nil_append, restSizes_zero_zero] at h
  exact h

theorem sizes51_length (m : Nat) : (sizes51 m).length = m / 51 + 1 := by
  induction m using Nat.strong_induction_on with
  | _ m ih =>
    rw [sizes51]
    by_cases h : m ≤ 50
    · rw [if_pos h]
      simp
      omega
    · rw [if_neg h]
      rw [List.length_cons, ih (m - 51) (by omega)]
      omega

theorem batchSizes_length (n : Nat) (h : n ≠ 0) : (batchSizes n).length = n / 51 + 1 := by
  rw [batchSizes, if_neg h]
  by_cases h1 : n ≤ 50
  · rw [if_pos h1]
    simp
    omega
  · rw [if_neg h1, List.length_cons, sizes51_length]
    omega

set_option maxRecDepth 10000 in
/-- C3 counterexample: 120 fully supported alleles produce 3 batches of
sizes 50, 51 and 19 — not 50, 50 and 20 — and 101 fully supported
alleles produce 2 batches although `ceil(101 / 50) = 3`. -/
theorem claim3_counterexample :
    ((alleleGroups (fun _ => true) ((List.range 120).map (fun n => "a" ++ toString n))).map
      List.length = [50, 51, 19]) ∧
    ((alleleGroups (fun _ => true) ((List.range 120).map (fun n => "a" ++ toString n))).map
      List.length ≠ [50, 50, 20]) ∧
    ((alleleGroups (fun _ => true) ((List.range 101).map (fun n => "a" ++ toString n))).length
      = 2) ∧ (101 + 50 - 1) / 50 = 3 := by
  refine ⟨by decide, by decide, by decide, by decide⟩

/-- C3 amended: for a fully supported allele set of size `N ≥ 1` the
batching loop partitions the converted allele strings exactly (union
equals the input, no duplicates, order preserved), but the batch sizes
are given by `batchSizes`: one batch of 50, then batches of 51, then
the remainder, for a total of `N / 51 + 1` batches (not `ceil(N / 50)`);
in particular 120 alleles give 3 batches of sizes 50, 51 and 19. -/
theorem claim3_batching_characterisation :
    (∀ keys : List String, keys ≠ [] →
      (alleleGroups (fun _ => true) keys).flatten = keys ∧
      (alleleGroups (fun _ => true) keys).map List.length = batchSizes keys.length ∧
      (alleleGroups (fun _ => true) keys).length = keys.length / 51 + 1) ∧
    (batchSizes 120 = [50, 51, 19]) := by
  constructor
  · intro keys hne
    refine ⟨alleleGroups_true_flatten keys, alleleGroups_true_sizes keys, ?_⟩
    have h1 : (alleleGroups (fun _ => true) keys).length =
        ((alleleGroups (fun _ => true) keys).map List.length).length := by simp
    rw [h1, alleleGroups_true_sizes keys,
      batchSizes_length keys.length (by simpa [List.length_eq_zero] using hne)]
  · have e1 : (120 : Nat) - 51 = 69 := by norm_num
    have e2 : (69 : Nat) - 51 = 18 := by norm_num
    rw [batchSizes, if_neg (by omega), if_neg (by omega), e1,
      sizes51, if_neg (by omega), e2, sizes51, if_pos (by omega)]

/-- Witness for the amended C3 at a concrete three-allele input. -/
theorem claim3_witness :
    (alleleGroups (fun _ => true) ["HLA-A*01:01", "HLA-A*02:01", "HLA-A*03:01"]).flatten =
      ["HLA-A*01:01", "HLA-A*02:01", "HLA-A*03:01"] ∧
    (alleleGroups (fun _ => true) ["HLA-A*01:01", "HLA-A*02:01", "HLA-A*03:01"]).map
      List.length = batchSizes 3 ∧
    (alleleGroups (fun _ => true) ["HLA-A*01:01", "HLA-A*02:01", "HLA-A*03:01"]).length =
      3 / 51 + 1 :=
  claim3_batching_characterisation.1 ["HLA-A*01:01", "HLA-A*02:01", "HLA-A*03:01"] (by decide)

/-! ### Length-group lemmas and claim C1 -/

/-- Every member of a run produced by `groupRuns` has the same length
as the head of its run (the `groupby` key). -/
theorem groupRuns_same_length :
    ∀ (seqs : List String), ∀ g ∈ groupRuns seqs, ∀ p ∈ g, p.length = (g.headD "").length
  | [] => by simp [groupRuns]
  | p :: ps => by
    intro g hg q hq
    rw [groupRuns] at hg
    rcases hrec : groupRuns ps with _ | ⟨g', gs⟩
    · rw [hrec] at hg
      simp only [List.mem_singleton] at hg
      subst hg
      simp only [List.mem_singleton] at hq
      subst hq
      rfl
    · rw [hrec] at hg
      dsimp only at hg
      by_cases hl : (g'.headD "").length = p.length
      · rw [if_pos hl] at hg
        rcases List.mem_cons.mp hg with hg | hg
        · subst hg
          simp only [List.headD_cons]
          rcases List.mem_cons.mp hq with hq | hq
          · subst hq; rfl
          · have h := groupRuns_same_length ps g' (by rw [hrec]; exact .head _) q hq
            rw [h, hl]
        · exact groupRuns_same_length ps g (by rw [hrec]; exact .tail _ hg) q hq
      · rw [if_neg hl] at hg
        rcases List.mem_cons.mp hg with hg | hg
        · subst hg
          simp only [List.mem_singleton] at hq
          subst hq
          rfl
        · exact groupRuns_same_length ps g (by rw [hrec]; exact hg) q hq

/-- C1 counterexample: for the NetMHC 3.4 supported lengths
`{8, 9, 10, 11}` a 12-mer peptide survives the length filter of
line 122 — only lengths below the minimum are dropped — so a peptide of
unsupported length appears in a constructed batch; with an external run
echoing it, its score also reaches the returned table. -/
theorem claim1_counterexample :
    (peptideBatches [8, 9, 10, 11] ["AAAAAAAAAAAA"] = [["AAAAAAAAAAAA"]]) ∧
    ("AAAAAAAAAAAA".length ∉ ([8, 9, 10, 11] : List Nat)) ∧
    ((predictModel netMHC_3_4_command ["A*01:01"] [8, 9, 10, 11] none none
        (fun _ _ => ⟨0, "", some [("HLA-A*01:01", "AAAAAAAAAAAA", (1 : ℝ))]⟩)
        ["AAAAAAAAAAAA"] [("HLA-A*01:01", "A*01:01")]).res =
      .ok [(("A*01:01", "AAAAAAAAAAAA"), (1 : ℝ))]) :=
  ⟨by decide, by decide, rfl⟩

/-- C1 amended: every peptide appearing in a constructed batch has
length at least the method's minimum supported length (lengths below
the minimum never appear, but unsupported lengths above the minimum
can), and every allele string appearing in an allele batch passed the
support test. -/
theorem claim1_batch_contents (supLen : List Nat) (seqs : List String)
    (supp : String → Bool) (keys : List String) :
    (∀ g ∈ peptideBatches supLen seqs, ∀ p ∈ g, pyMin supLen ≤ p.length) ∧
    (∀ g ∈ alleleGroups supp keys, ∀ a ∈ g, supp a = true) := by
  constructor
  · intro g hg p hp
    rw [peptideBatches, List.mem_filter] at hg
    have hlen := groupRuns_same_length seqs g hg.1 p hp
    have hge : ¬((g.headD "").length < pyMin supLen) := by
      simpa using hg.2
    omega
  · exact (alleleGroups_bound_and_supported supp keys).2

/-- Witness for the amended C1 at a concrete input. -/
theorem claim1_witness :
    (8 : Nat) ≤ "PEPTIDEX".length ∧ ((fun a => a ≠ "bad") "HLA-A*01:01" : Bool) = true := by
  constructor
  · have h := (claim1_batch_contents [8, 9, 10, 11] ["PEPTIDEX"] (fun a => a ≠ "bad")
      ["HLA-A*01:01"]).1 ["PEPTIDEX"] (by decide) "PEPTIDEX" (by decide)
    simpa [pyMin] using h
  · exact (claim1_batch_contents [8, 9, 10, 11] ["PEPTIDEX"] (fun a => a ≠ "bad")
      ["HLA-A*01:01"]).2 ["HLA-A*01:01"] (by decide) "HLA-A*01:01" (by decide)

/-! ### Temporary-file lifecycle and error propagation (C4, C6, C8) -/

/-- If all allele batches of a length group complete normally, the two
temporary files created for it are removed again: the filesystem state
is exactly as before the group. -/
theorem runLengthGroups_ok_live (runner : Nat → String → ToolRun) (template optStr : String)
    (supLen : List Nat) (alleles : List (String × String)) (pep_seqs : List String)
    (agroups : List (List String)) :
    ∀ (lgs : List (List String)) (st : PredState) (r : List ((String × String) × ℝ)),
      (∀ x ∈ st.live, x < st.nextF) →
      (runLengthGroups runner template optStr supLen alleles pep_seqs agroups lgs st).res =
        .ok r →
      (runLengthGroups runner template optStr supLen alleles pep_seqs agroups lgs st).live =
        st.live
  | [], st, r, _, _ => rfl
  | g :: lgs, st, r, hfresh, hok => by
    rw [runLengthGroups] at hok ⊢
    by_cases hl : (g.headD "").length < pyMin supLen
    · rw [if_pos hl] at hok ⊢
      exact runLengthGroups_ok_live runner template optStr supLen alleles pep_seqs agroups
        lgs st r hfresh hok
    · rw [if_neg hl] at hok ⊢
      dsimp only at hok ⊢
      rcases hrb : runBatches runner template (tmpName (st.nextF + 1)) (tmpName st.nextF)
          optStr alleles pep_seqs agroups st.nextInv st.result with e | p
      · rw [hrb] at hok
        simp at hok
      · rw [hrb] at hok
        obtain ⟨k', res'⟩ := p
        dsimp only at hok ⊢
        have hout : st.nextF ∉ st.live := fun hmem => absurd (hfresh _ hmem) (by omega)
        have hfile : st.nextF + 1 ∉ st.live := fun hmem => absurd (hfresh _ hmem) (by omega)
        have herase : ((st.live ++ [st.nextF, st.nextF + 1]).erase (st.nextF + 1)).erase
            st.nextF = st.live := by
          rw [List.erase_append_right _ hfile]
          have h1 : ([st.nextF, st.nextF + 1].erase (st.nextF + 1)) = [st.nextF] := by
            rw [List.erase_cons_tail (by simp)]
            simp
          rw [h1, List.erase_append_right _ hout]
          simp
        rw [herase] at hok ⊢
        have hfresh' : ∀ x ∈ st.live, x < st.nextF + 2 := fun x hx => by
          have := hfresh x hx; omega
        exact runLengthGroups_ok_live runner template optStr supLen alleles pep_seqs agroups
          lgs ⟨res', st.live, st.nextF + 2, k'⟩ r hfresh' hok

/-- The filesystem component of `predictModel` is that of
`predictCore`, whatever branch the final emptiness check takes. -/
theorem predictModel_live (template : String) (sa : List String) (sl : List Nat)
    (co opts : Option String) (runner : Nat → String → ToolRun)
    (peps : List String) (alleles : List (String × String)) :
    (predictModel template sa sl co opts runner peps alleles).live =
      (predictCore template sa sl co opts runner peps alleles).live := by
  rw [predictModel]
  rcases h : (predictCore template sa sl co opts runner peps alleles).res with e | r
  · rfl
  · dsimp only
    by_cases he : r.isEmpty <;> simp [he]

/-- C4 counterexample: when the external process of the only batch
exits with status 1, `predict` propagates the `RuntimeError` without
reaching the `os.remove` calls of lines 154-156, so both temporary
files of that cycle (identifiers 0 and 1) survive the call — the claim
that they are removed on every exit path fails. -/
theorem claim4_counterexample :
    ((predictModel netMHC_3_4_command ["A*01:01"] [8, 9, 10, 11] none none
        (fun _ _ => ⟨1, "boom", some []⟩)
        ["AAAAAAAA"] [("HLA-A*01:01", "A*01:01")]).live = [0, 1]) ∧
    ((predictModel netMHC_3_4_command ["A*01:01"] [8, 9, 10, 11] none none
        (fun _ _ => ⟨1, "boom", some []⟩)
        ["AAAAAAAA"] [("HLA-A*01:01", "A*01:01")]).res =
      .error ("Unsuccessful execution of netMHC -p /tmp/tmp1 -a HLA-A*01:01 -x /tmp/tmp0 " ++
        " (EXIT!=0) with error: boom")) ∧
    (([0, 1] : List Nat) ≠ []) :=
  ⟨rfl, rfl, by decide⟩

/-- C1 amended counterpart for the file lifecycle, i.e. C4 amended: on
the normal-completion path every temporary file is removed before
`predict` returns, but on a process failure, a parse failure or a
`KeyError` the exception propagates past the `os.remove` calls and the
two files of the failing cycle are left behind.  Formally: whenever
`predict` returns a table, no temporary file outlives the call. -/
theorem claim4_cleanup_on_success_only (template : String) (sa : List String) (sl : List Nat)
    (co opts : Option String) (runner : Nat → String → ToolRun)
    (peps : List String) (alleles : List (String × String))
    (t : List ((String × String) × ℝ))
    (h : (predictModel template sa sl co opts runner peps alleles).res = .ok t) :
    (predictModel template sa sl co opts runner peps alleles).live = [] := by
  rw [predictModel_live]
  have hres : ∃ r, (predictCore template sa sl co opts runner peps alleles).res = .ok r := by
    rw [predictModel] at h
    rcases hc : (predictCore template sa sl co opts runner peps alleles).res with e | r
    · rw [hc] at h
      simp at h
    · exact ⟨r, rfl⟩
  obtain ⟨r, hr⟩ := hres
  exact runLengthGroups_ok_live runner _ _ sl alleles peps _ (groupRuns peps)
    ⟨[], [], 0, 0⟩ r (by simp) hr

/-- Witness for the amended C4: a concrete successful run removes both
temporary files. -/
theorem claim4_witness :
    (predictModel netMHC_3_4_command ["A*01:01"] [8, 9, 10, 11] none none
      (fun _ _ => ⟨0, "", some [("HLA-A*01:01", "AAAAAAAA", (1 : ℝ))]⟩)
      ["AAAAAAAA"] [("HLA-A*01:01", "A*01:01")]).live = [] :=
  claim4_cleanup_on_success_only netMHC_3_4_command ["A*01:01"] [8, 9, 10, 11] none none
    (fun _ _ => ⟨0, "", some [("HLA-A*01:01", "AAAAAAAA", (1 : ℝ))]⟩)
    ["AAAAAAAA"] [("HLA-A*01:01", "A*01:01")]
    [(("A*01:01", "AAAAAAAA"), (1 : ℝ))] rfl

/-- C6 counterexample: a process killed by a signal has a negative
return code in the Python `subprocess` module; the check on line 145 is
`stdr > 0`, so a return code of `-1` — a non-zero exit status — passes
silently and `predict` returns a table instead of failing. -/
theorem claim6_counterexample :
    ((-1 : Int) ≠ 0) ∧
    ((predictModel netMHC_3_4_command ["A*01:01"] [8, 9, 10, 11] none none
        (fun _ _ => ⟨-1, "killed", some [("HLA-A*01:01", "AAAAAAAA", (1 : ℝ))]⟩)
        ["AAAAAAAA"] [("HLA-A*01:01", "A*01:01")]).res =
      .ok [(("A*01:01", "AAAAAAAA"), (1 : ℝ))]) :=
  ⟨by decide, rfl⟩

/-- C6 amended: for every positive exit status of the spawned external
process the whole `predict` call fails with a `RuntimeError` carrying
the exact command line and the captured standard error, the batch loop
stops at the failing batch (no retry, no partial table), and the error
propagates unchanged through the final emptiness check; a negative
(signal) return code, however, is not caught by the `stdr > 0` test. -/
theorem claim6_positive_exit_fails (runner : Nat → String → ToolRun)
    (template pf ofile ostr : String) (alleles : List (String × String))
    (peps : List String) (g : List String) (gs : List (List String)) (k : Nat)
    (acc : List ((String × String) × ℝ))
    (template' : String) (sa : List String) (sl : List Nat) (co opts : Option String)
    (runner' : Nat → String → ToolRun) (peps' : List String)
    (alleles' : List (String × String)) (e : String) :
    ((runner k (formatCmd template pf (String.intercalate "," g) ostr ofile)).returncode > 0 →
      runBatches runner template pf ofile ostr alleles peps (g :: gs) k acc =
        .error ("Unsuccessful execution of " ++
          formatCmd template pf (String.intercalate "," g) ostr ofile ++
          " (EXIT!=0) with error: " ++
          (runner k (formatCmd template pf (String.intercalate "," g) ostr ofile)).stderr)) ∧
    ((predictCore template' sa sl co opts runner' peps' alleles').res = .error e →
      (predictModel template' sa sl co opts runner' peps' alleles').res = .error e) := by
  constructor
  · intro h
    rw [runBatches]
    rw [if_pos h]
  · intro h
    rw [predictModel]
    rw [h]

/-- Witness for the amended C6: a concrete failing batch yields exactly
the documented error, and it propagates through `predict`. -/
theorem claim6_witness :
    (runBatches (fun _ _ => ⟨2, "segfault", some []⟩) netMHC_3_4_command "/tmp/tmp1" "/tmp/tmp0"
      "" [("HLA-A*01:01", "A*01:01")] ["AAAAAAAA"] [["HLA-A*01:01"]] 0 [] =
      .error ("Unsuccessful execution of " ++
        formatCmd netMHC_3_4_command "/tmp/tmp1" (String.intercalate "," ["HLA-A*01:01"]) ""
          "/tmp/tmp0" ++ " (EXIT!=0) with error: " ++ "segfault")) ∧
    ((predictModel netMHC_3_4_command ["A*01:01"] [8, 9, 10, 11] none none
        (fun _ _ => ⟨2, "segfault", some []⟩) ["AAAAAAAA"]
        [("HLA-A*01:01", "A*01:01")]).res =
      .error ("Unsuccessful execution of netMHC -p /tmp/tmp1 -a HLA-A*01:01 -x /tmp/tmp0 " ++
        " (EXIT!=0) with error: segfault")) :=
  ⟨(claim6_positive_exit_fails (fun _ _ => ⟨2, "segfault", some []⟩) netMHC_3_4_command
      "/tmp/tmp1" "/tmp/tmp0" "" [("HLA-A*01:01", "A*01:01")] ["AAAAAAAA"] ["HLA-A*01:01"] []
      0 [] netMHC_3_4_command ["A*01:01"] [8, 9, 10, 11] none none
      (fun _ _ => ⟨2, "segfault", some []⟩) ["AAAAAAAA"] [("HLA-A*01:01", "A*01:01")] "").1
      (by decide),
   (claim6_positive_exit_fails (fun _ _ => ⟨2, "segfault", some []⟩) netMHC_3_4_command
      "/tmp/tmp1" "/tmp/tmp0" "" [("HLA-A*01:01", "A*01:01")] ["AAAAAAAA"] ["HLA-A*01:01"] []
      0 [] netMHC_3_4_command ["A*01:01"] [8, 9, 10, 11] none none
      (fun _ _ => ⟨2, "segfault", some []⟩) ["AAAAAAAA"] [("HLA-A*01:01", "A*01:01")]
      ("Unsuccessful execution of netMHC -p /tmp/tmp1 -a HLA-A*01:01 -x /tmp/tmp0 " ++
        " (EXIT!=0) with error: segfault")).2 rfl⟩

/-- C8: `predict` never returns an empty result table — whenever the
merged result mapping is empty after all cycles (for instance because
every requested allele was unsupported, so that no batch was formed),
lines 158-160 raise a `ValueError` instead of returning a table. -/
theorem claim8_no_empty_table (template : String) (sa : List String) (sl : List Nat)
    (co opts : Option String) (runner : Nat → String → ToolRun)
    (peps : List String) (alleles : List (String × String)) :
    (∀ t, (predictModel template sa sl co opts runner peps alleles).res = .ok t → t ≠ []) ∧
    ((predictCore template sa sl co opts runner peps alleles).res = .ok [] →
      (predictModel template sa sl co opts runner peps alleles).res =
        .error "No predictions could be made for given input.") := by
  constructor
  · intro t h
    rw [predictModel] at h
    rcases hc : (predictCore template sa sl co opts runner peps alleles).res with e | r
    · rw [hc] at h
      simp at h
    · rw [hc] at h
      dsimp only at h
      by_cases he : r.isEmpty
      · rw [if_pos he] at h
        simp at h
      · rw [if_neg he] at h
        dsimp only at h
        cases h
        simpa [List.isEmpty_iff] using he
  · intro h
    rw [predictModel, h]
    rfl

/-- Witness for C8: a concrete successful call returns a non-empty
table, and a call whose only allele is unsupported (so that no batch is
ever formed) yields the `ValueError`. -/
theorem claim8_witness :
    (([(("A*01:01", "AAAAAAAA"), (1 : ℝ))] :
      List ((String × String) × ℝ)) ≠ []) ∧
    ((predictModel netMHC_3_4_command ["A*01:01"] [8, 9, 10, 11] none none
        (fun _ _ => ⟨0, "", some []⟩) ["AAAAAAAA"] [("HLA-B*99:99", "B*99:99")]).res =
      .error "No predictions could be made for given input.") :=
  ⟨(claim8_no_empty_table netMHC_3_4_command ["A*01:01"] [8, 9, 10, 11] none none
      (fun _ _ => ⟨0, "", some [("HLA-A*01:01", "AAAAAAAA", (1 : ℝ))]⟩)
      ["AAAAAAAA"] [("HLA-A*01:01", "A*01:01")]).1
      [(("A*01:01", "AAAAAAAA"), (1 : ℝ))] rfl,
   (claim8_no_empty_table netMHC_3_4_command ["A*01:01"] [8, 9, 10, 11] none none
      (fun _ _ => ⟨0, "", some []⟩) ["AAAAAAAA"] [("HLA-B*99:99", "B*99:99")]).2 rfl⟩

/-! ### Score normalisation (C5) and the `Average` pseudo-allele (C9) -/

theorem netmhcScore_nonneg (x : ℝ) : 0 ≤ netmhcScore x := by
  rw [netmhcScore]
  split
  · rename_i hpos
    linarith
  · exact le_refl 0

theorem netmhcScore_eq_zero_of_ge (x : ℝ) (h : 50000 ≤ x) : netmhcScore x = 0 := by
  have hb : (1 : ℝ) < 50000 := by norm_num
  have h1 : Real.logb 50000 50000 ≤ Real.logb 50000 x :=
    Real.logb_le_logb_of_le hb (by norm_num) h
  rw [Real.logb_self_eq_one hb] at h1
  rw [netmhcScore, if_neg (by linarith)]

theorem netmhcScore_le_one (x : ℝ) (h : 1 ≤ x) : netmhcScore x ≤ 1 := by
  have hb : (1 : ℝ) < 50000 := by norm_num
  have h0 : 0 ≤ Real.logb 50000 x := Real.logb_nonneg hb h
  rw [netmhcScore]
  split
  · linarith
  · norm_num

/-- C5 counterexample: the `NetMHCpan_2_4` parser (cited by the claim as
an IC50 normaliser) stores the raw cell value unchanged — an IC50 of
500 nM is reported as 500, not as `1 − log₅₀₀₀₀ 500 ≈ 0.532`. -/
theorem claim5_counterexample :
    (parse_NetMHCpan_2_4 (fun _ => (500 : ℝ))
      [["Pos", "Peptide", "ID", "A*01:01", "Ave"], ["0", "PEPTIDE", "id", "500", "1"]] =
      [("A*01:01", "PEPTIDE", (500 : ℝ))]) ∧
    netmhcScore 500 ≠ 500 := by
  refine ⟨rfl, ?_⟩
  have h := netmhcScore_le_one 500 (by norm_num)
  intro heq
  rw [heq] at h
  norm_num at h

/-- C5 amended: the `NetMHC_3_4` and `NetMHC_3_0` parsers normalise the
raw IC50 to `1 − log₅₀₀₀₀ ic50` clamped at 0 — an IC50 at or above
50000 nM is reported as exactly 0, every reported score is ≥ 0, and the
score is ≤ 1 whenever the IC50 is at least 1 nM (an IC50 below 1 nM
would normalise above 1).  All other adapters — including
`NetMHCpan_2_4`, whose command requests IC50 output — store the raw
parsed value unchanged (shown here for NetMHCpan 2.4, PickPocket,
NetCTLpan and NetMHCII on one-row outputs with an arbitrary cell
value `x`). -/
theorem claim5_normalisation :
    (∀ x : ℝ, 50000 ≤ x → netmhcScore x = 0) ∧
    (∀ x : ℝ, 0 ≤ netmhcScore x) ∧
    (∀ x : ℝ, 1 ≤ x → netmhcScore x ≤ 1) ∧
    (∀ x : ℝ, parse_NetMHC_3_4 (fun _ => x)
      [[], [], ["Pos", "Peptide", "ID", "A*01:01"], ["0", "id", "PEPTIDE", "500"]] =
      [("A*01:01", "PEPTIDE", netmhcScore x)]) ∧
    (∀ x : ℝ, parse_NetMHCpan_2_4 (fun _ => x)
      [["Pos", "Peptide", "ID", "A*01:01", "Ave"], ["0", "PEPTIDE", "id", "500", "1"]] =
      [("A*01:01", "PEPTIDE", x)]) ∧
    (∀ x : ℝ, parse_PickPocket_1_1 (fun _ => x)
      [" 0 HLA-A*02:01 SIINFEKL id 0.5"] = [("HLA-A02:01", "SIINFEKL", x)]) ∧
    (∀ x : ℝ, parse_NetCTLpan_1_1 (fun _ => x)
      ["1 x HLA-A*02:01 SIINFEKL a b c 0.77"] = [("HLA-A02:01", "SIINFEKL", x)]) ∧
    (∀ x : ℝ, parse_NetMHCII_2_2 (fun _ => x)
      [["HLA-DRB1*0101 1 PEPTIDESEQ x 0.3"]] = [("HLA-DRB1*0101", "PEPTIDESEQ", x)]) :=
  ⟨netmhcScore_eq_zero_of_ge, netmhcScore_nonneg, netmhcScore_le_one,
   fun _ => rfl, fun _ => rfl, fun _ => rfl, fun _ => rfl, fun _ => rfl⟩

/-- Witness for the amended C5 at concrete IC50 values. -/
theorem claim5_witness :
    netmhcScore 60000 = 0 ∧ (0 : ℝ) ≤ netmhcScore 500 ∧ netmhcScore 500 ≤ 1 :=
  ⟨claim5_normalisation.1 60000 (by norm_num),
   claim5_normalisation.2.1 500,
   claim5_normalisation.2.2.1 500 (by norm_num)⟩

/-- C9 counterexample: on a NetMHC xls output whose header carries the
`Average` pseudo-allele column, the `NetMHC_3_4` parser keeps the
`Average` entry in its result (only `NetMHC_3_0` pops it), so the claim
that every such adapter excludes it fails. -/
theorem claim9_counterexample :
    "Average" ∈ (parse_NetMHC_3_4 (fun _ => (0 : ℝ))
      [[], [], ["Pos", "Peptide", "ID", "A*01:01", "Average"],
       ["0", "id", "PEPTIDE", "500", "400"]]).map Prod.fst := by
  decide

/-- C9 amended: the `NetMHC_3_0` parser removes the `Average`
pseudo-allele from its result on every input, but the `NetMHC_3_4`
parser — which reads the same xls format — retains it. -/
theorem claim9_average_exclusion :
    (∀ (val : String → ℝ) (rows : List (List String)),
      "Average" ∉ (parse_NetMHC_3_0 val rows).map Prod.fst) ∧
    ("Average" ∈ (parse_NetMHC_3_0 (fun _ => (0 : ℝ))
      [[], [], ["Pos", "Peptide", "ID", "A*01:01", "Average"],
       ["0", "id", "PEPTIDE", "500", "400"]]).map Prod.fst → False) ∧
    ("Average" ∈ (parse_NetMHC_3_4 (fun _ => (0 : ℝ))
      [[], [], ["Pos", "Peptide", "ID", "A*01:01", "Average"],
       ["0", "id", "PEPTIDE", "500", "400"]]).map Prod.fst) := by
  refine ⟨?_, ?_, by decide⟩
  · intro val rows h
    rw [List.mem_map] at h
    obtain ⟨e, he, hfst⟩ := h
    rw [parse_NetMHC_3_0, List.mem_filter] at he
    have := he.2
    rw [hfst] at this
    simp at this
  · intro h
    rw [List.mem_map] at h
    obtain ⟨e, he, hfst⟩ := h
    rw [parse_NetMHC_3_0, List.mem_filter] at he
    have := he.2
    rw [hfst] at this
    simp at this

/-- Witness for the amended C9: instantiating the universal exclusion
at the concrete `Average`-bearing file. -/
theorem claim9_witness :
    "Average" ∉ (parse_NetMHC_3_0 (fun _ => (0 : ℝ))
      [[], [], ["Pos", "Peptide", "ID", "A*01:01", "Average"],
       ["0", "id", "PEPTIDE", "500", "400"]]).map Prod.fst :=
  claim9_average_exclusion.1 (fun _ => (0 : ℝ))
    [[], [], ["Pos", "Peptide", "ID", "A*01:01", "Average"],
     ["0", "id", "PEPTIDE", "500", "400"]]

/-! ### The set-enumeration column pairing of NetMHCpan 2.8 and
NetMHCIIpan 3.0 (C10) -/

/-- Core of C10: with pairwise distinct column values, pairing the
`i`-th element of an enumeration `as` of the header alleles with the
value of column slot `i` assigns every allele the value of its own
header column if and only if the enumeration coincides with the header
order. -/
theorem stride_scores_own_iff (as hdr : List String) (f : Nat → ℝ)
    (hnd : hdr.Nodup) (hperm : as.Perm hdr)
    (hinj : ∀ i j, i < hdr.length → j < hdr.length → f i = f j → i = j) :
    (∀ p ∈ as.enum, f p.1 = f (hdr.indexOf p.2)) ↔ as = hdr := by
  constructor
  · intro h
    have hlen : as.length = hdr.length := hperm.length_eq
    apply List.ext_getElem hlen
    intro i h1 h2
    have hp : (i, as[i]) ∈ as.enum := by
      rw [List.mk_mem_enum_iff_getElem?]
      simp [h1]
    have hfi := h (i, as[i]) hp
    have hmem : as[i] ∈ hdr := hperm.subset (List.getElem_mem h1)
    have hidx : hdr.indexOf as[i] < hdr.length := List.indexOf_lt_length.mpr hmem
    have hieq : i = hdr.indexOf as[i] := hinj i (hdr.indexOf as[i]) (by omega) hidx hfi
    have hback : hdr[hdr.indexOf as[i]] = as[i] := List.getElem_indexOf hidx
    rw [← hback]
    congr 1
    omega
  · intro heq
    rw [List.forall_mem_enum]
    intro i hi
    dsimp only
    subst heq
    have hx : as.indexOf as[i] = i := List.indexOf_getElem hnd i hi
    rw [hx]

/-- C10: in the NetMHCpan 2.8 and NetMHCIIpan 3.0 parsers the header
allele names pass through a Python `set` before being enumerated, and
the `i`-th element of that enumeration is paired with score column
`3 + i*3`; for a well-formed one-row output whose header holds at least
two distinct alleles and whose score cells are pairwise distinct, every
allele receives the value of its own column if and only if the set's
enumeration order `as` coincides with the header's column order —
otherwise some allele is assigned a score read from a different
allele's column. -/
theorem claim10_set_order_mismatch (as hdr : List String) (r0 srow row : List String)
    (val : String → ℝ)
    (hhdr : hdr = r0.filter (fun x => x ≠ ""))
    (hnd : hdr.Nodup) (hperm : as.Perm hdr) (h2 : 2 ≤ hdr.length)
    (hinj : ∀ i j, i < hdr.length → j < hdr.length →
      val (row.getD (3 + i * 3) "") = val (row.getD (3 + j * 3) "") → i = j) :
    ((parse_NetMHCpan_2_8 (fun _ => as) val [r0, srow, row] =
        as.enum.map (fun p => (p.2, row.getD 1 "",
          val (row.getD (3 + hdr.indexOf p.2 * 3) "")))) ↔ as = hdr) ∧
    ((parse_NetMHCIIpan_3_0 (fun _ => as) val [r0, srow, row] =
        as.enum.map (fun p => (iiPanName p.2, row.getD 1 "",
          val (row.getD (3 + hdr.indexOf p.2 * 3) "")))) ↔ as = hdr) := by
  have hcore := stride_scores_own_iff as hdr (fun i => val (row.getD (3 + i * 3) "")) hnd
    hperm hinj
  have hparse1 : parse_NetMHCpan_2_8 (fun _ => as) val [r0, srow, row] =
      as.enum.map (fun p => (p.2, row.getD 1 "", val (row.getD (3 + p.1 * 3) ""))) := by
    subst hhdr
    simp [parse_NetMHCpan_2_8]
  have hparse2 : parse_NetMHCIIpan_3_0 (fun _ => as) val [r0, srow, row] =
      as.enum.map (fun p => (iiPanName p.2, row.getD 1 "",
        val (row.getD (3 + p.1 * 3) ""))) := by
    subst hhdr
    simp [parse_NetMHCIIpan_3_0, List.enum_map, List.map_map]
  constructor
  · rw [hparse1]
    constructor
    · intro h
      apply hcore.mp
      intro p hp
      have hcomp := List.map_eq_map_iff.mp h p hp
      simpa using hcomp
    · intro h
      apply List.map_eq_map_iff.mpr
      intro p hp
      have := hcore.mpr h p hp
      simpa using this
  · rw [hparse2]
    constructor
    · intro h
      apply hcore.mp
      intro p hp
      have hcomp := List.map_eq_map_iff.mp h p hp
      simpa using hcomp
    · intro h
      apply List.map_eq_map_iff.mpr
      intro p hp
      have := hcore.mpr h p hp
      simpa using this

/-- Witness for C10: a concrete two-allele file with distinct column
values, with the set enumeration agreeing with the header order — every
allele then receives its own column's value. -/
theorem claim10_witness :
    parse_NetMHCpan_2_8 (fun _ => ["A1", "A2"])
      (fun s => if s = "55" then (2 : ℝ) else 1)
      [["", "A1", "", "", "A2"], ["h"], ["0", "PEP", "id", "5", "x", "y", "55"]] =
    (["A1", "A2"] : List String).enum.map (fun p => (p.2,
      (["0", "PEP", "id", "5", "x", "y", "55"] : List String).getD 1 "",
      (fun s => if s = "55" then (2 : ℝ) else 1)
        ((["0", "PEP", "id", "5", "x", "y", "55"] : List String).getD
          (3 + (["A1", "A2"] : List String).indexOf p.2 * 3) ""))) := by
  have hinj : ∀ i j, i < (["A1", "A2"] : List String).length →
      j < (["A1", "A2"] : List String).length →
      (fun s => if s = "55" then (2 : ℝ) else 1)
        ((["0", "PEP", "id", "5", "x", "y", "55"] : List String).getD (3 + i * 3) "") =
      (fun s => if s = "55" then (2 : ℝ) else 1)
        ((["0", "PEP", "id", "5", "x", "y", "55"] : List String).getD (3 + j * 3) "") →
      i = j := by
    intro i j hi hj hv
    simp only [List.length_cons, List.length_nil] at hi hj
    interval_cases i <;> interval_cases j <;> simp_all
  exact (claim10_set_order_mismatch ["A1", "A2"] ["A1", "A2"] ["", "A1", "", "", "A2"]
    ["h"] ["0", "PEP", "id", "5", "x", "y", "55"]
    (fun s => if s = "55" then (2 : ℝ) else 1)
    (by decide) (by decide) (by decide) (by decide) hinj).1.mpr rfl

end Fred2
